import Mathlib

/-!
# Verification of the MoCo-Hiring-Monitor core (monitor.py, dashboard.py)

Shallow embedding of the ingestion/deduplication/windowing core of the
repository.  Python strings are modelled as lists of Unicode code points
(`List Nat`); Python `datetime.date` values are modelled by their proleptic
Gregorian ordinal (`ℤ`, as returned by `date.toordinal()`), so that
`timedelta` arithmetic is integer arithmetic and `date.weekday()` is modular
arithmetic; Python floats arising from divisions of small integer counts are
modelled as exact rationals (`ℚ`); the sqlite tables are modelled as lists of
row structures keyed by their primary-key column; `utc_now_iso()` and other
ambient effects are passed in as explicit parameters.
-/

namespace MocoMonitor

/-- Code points of a Lean string literal; used to write down the Python
string constants of the source. -/
def pyStr (s : String) : List Nat := s.toList.map Char.toNat

/-- Python `\s` for the ASCII range: space, tab, newline, carriage return,
form feed, vertical tab (the characters `str.strip()` and `re.sub(r"\s+")`
treat as whitespace). -/
def isPySpace (c : Nat) : Bool :=
  c == 32 || c == 9 || c == 10 || c == 13 || c == 12 || c == 11

/-- Python `str.lower()` on the ASCII range: map `A`–`Z` to `a`–`z`. -/
def pyLower (c : Nat) : Nat :=
  if 65 ≤ c && c ≤ 90 then c + 32 else c

/-- Python `\w` (ASCII): letters, digits, underscore. -/
def isPyWord (c : Nat) : Bool :=
  (97 ≤ c && c ≤ 122) || (65 ≤ c && c ≤ 90) || (48 ≤ c && c ≤ 57) || c == 95

/-- Characters kept by `re.sub(r"[^\w\s&-]", "", s)` in `normalize_company`:
word characters, whitespace, `&` (38) and `-` (45). -/
def keepChar (c : Nat) : Bool :=
  isPyWord c || isPySpace c || c == 38 || c == 45

/-- `s.strip()` from the left: drop leading whitespace. -/
def lstrip (s : List Nat) : List Nat := s.dropWhile isPySpace

/-- `s.strip()` from the right: drop trailing whitespace. -/
def rstrip (s : List Nat) : List Nat := (s.reverse.dropWhile isPySpace).reverse

/-- Python `s.strip()`. -/
def pyStrip (s : List Nat) : List Nat := rstrip (lstrip s)

/-- Worker for `re.sub(r"\s+", " ", s)`: the flag records whether we are
inside a whitespace run whose single replacement space was already
emitted. -/
def collapseAux : Bool → List Nat → List Nat
  | _, [] => []
  | true, c :: rest =>
    if isPySpace c then collapseAux true rest
    else c :: collapseAux false rest
  | false, c :: rest =>
    if isPySpace c then 32 :: collapseAux true rest
    else c :: collapseAux false rest

/-- Python `re.sub(r"\s+", " ", s)`: every maximal whitespace run becomes a
single space. -/
def collapseSpaces (s : List Nat) : List Nat := collapseAux false s

/-- The company-suffix list of `normalize_company` (monitor.py line 50 /
dashboard.py line 120), in source order. -/
def companySuffixes : List (List Nat) :=
  [pyStr " inc", pyStr " llc", pyStr " ltd", pyStr " co", pyStr " corporation",
   pyStr " corp", pyStr " company", pyStr " incorporated", pyStr " limited"]

/-- One iteration of the suffix loop of `normalize_company`:
`if s.endswith(suf): s = s[: -len(suf)].strip()`. -/
def stripSuffixStep (s suf : List Nat) : List Nat :=
  if suf <:+ s then pyStrip (s.take (s.length - suf.length)) else s

/-- `normalize_company` (monitor.py lines 44–54; dashboard.py lines 114–124
are an identical copy): lowercase, drop punctuation other than `&`/`-`,
collapse whitespace, then strip each company suffix at most once, in list
order. -/
def normalize_company (name : List Nat) : List Nat :=
  if name = [] then []
  else
    let s1 := (pyStrip name).map pyLower
    let s2 := s1.filter keepChar
    let s3 := pyStrip (collapseSpaces s2)
    companySuffixes.foldl stripSuffixStep s3

/-! ### Invariants of the strings produced by `normalize_company`

A normalized name consists of kept, already-lowercased characters, with all
whitespace collapsed to single interior `' '` characters.  These invariants
are what make a second normalization pass act as the identity up to the
suffix loop. -/

/-- A character as it can appear in a normalized name: kept by the character
filter, fixed by lowering, and equal to `' '` if whitespace at all. -/
def cleanChar (c : Nat) : Bool :=
  keepChar c && (pyLower c == c) && (!isPySpace c || c == 32)

/-- No two adjacent whitespace characters. -/
def SpacedOk (s : List Nat) : Prop :=
  s.Chain' fun a b => isPySpace a = false ∨ isPySpace b = false

def CleanedChars (s : List Nat) : Prop := ∀ c ∈ s, cleanChar c = true

def HeadNoSpace (s : List Nat) : Prop :=
  ∀ c, s.head? = some c → isPySpace c = false

def LastNoSpace (s : List Nat) : Prop :=
  ∀ c, s.getLast? = some c → isPySpace c = false

/-- Full invariant of intermediate strings of `normalize_company`. -/
def Cleaned (s : List Nat) : Prop :=
  CleanedChars s ∧ SpacedOk s ∧ HeadNoSpace s ∧ LastNoSpace s

theorem pyLower_idem (c : Nat) : pyLower (pyLower c) = pyLower c := by
  by_cases h : (65 ≤ c && c ≤ 90) = true
  · have h1 : pyLower c = c + 32 := by simp [pyLower, h]
    have h' : ¬ ((65 ≤ c + 32 && c + 32 ≤ 90) = true) := by
      simp only [Bool.and_eq_true, decide_eq_true_eq] at h ⊢
      omega
    rw [h1]
    simp only [pyLower]
    rw [if_neg h']
  · have h1 : pyLower c = c := by simp [pyLower, h]
    rw [h1, h1]

theorem dropWhile_head_no_space (l : List Nat) :
    HeadNoSpace (l.dropWhile isPySpace) := by
  induction l with
  | nil => intro c h; simp at h
  | cons a rest ih =>
    intro c h
    by_cases ha : isPySpace a = true
    · rw [List.dropWhile_cons_of_pos ha] at h
      exact ih c h
    · rw [List.dropWhile_cons_of_neg ha] at h
      simp only [List.head?_cons, Option.some.injEq] at h
      subst h
      simpa using ha

theorem dropWhile_eq_self_of_head (l : List Nat) (h : HeadNoSpace l) :
    l.dropWhile isPySpace = l := by
  cases l with
  | nil => rfl
  | cons a rest =>
    have := h a rfl
    rw [List.dropWhile_cons_of_neg (by simp [this])]

theorem rstrip_prefix_self (l : List Nat) : rstrip l <+: l := by
  apply List.reverse_suffix.mp
  simpa [rstrip] using
    (List.dropWhile_suffix isPySpace :
      List.dropWhile isPySpace l.reverse <:+ l.reverse)

theorem rstrip_last (l : List Nat) : LastNoSpace (rstrip l) := by
  intro c h
  unfold rstrip at h
  rw [List.getLast?_reverse] at h
  exact dropWhile_head_no_space l.reverse c h

theorem rstrip_head (l : List Nat) (h : HeadNoSpace l) :
    HeadNoSpace (rstrip l) := by
  intro c hc
  obtain ⟨t, ht⟩ := rstrip_prefix_self l
  apply h
  rw [← ht, List.head?_append, hc]
  rfl

theorem mem_rstrip (l : List Nat) (c : Nat) (h : c ∈ rstrip l) : c ∈ l :=
  (rstrip_prefix_self l).mem h

theorem mem_pyStrip (l : List Nat) (c : Nat) (h : c ∈ pyStrip l) : c ∈ l :=
  (List.dropWhile_suffix isPySpace).mem (mem_rstrip (lstrip l) c h)

theorem spacedOk_pyStrip (l : List Nat) (h : SpacedOk l) :
    SpacedOk (pyStrip l) :=
  List.Chain'.prefix (h.suffix (List.dropWhile_suffix isPySpace))
    (rstrip_prefix_self (lstrip l))

theorem cleaned_pyStrip (l : List Nat) (h1 : CleanedChars l) (h2 : SpacedOk l) :
    Cleaned (pyStrip l) := by
  refine ⟨fun c hc => h1 c (mem_pyStrip l c hc), spacedOk_pyStrip l h2, ?_, ?_⟩
  · exact rstrip_head _ (dropWhile_head_no_space l)
  · exact rstrip_last _

theorem pyStrip_eq_self (l : List Nat) (h1 : HeadNoSpace l) (h2 : LastNoSpace l) :
    pyStrip l = l := by
  unfold pyStrip lstrip rstrip
  rw [dropWhile_eq_self_of_head l h1]
  rw [dropWhile_eq_self_of_head l.reverse (by
    intro c hc
    rw [List.head?_reverse] at hc
    exact h2 c hc)]
  exact List.reverse_reverse l

theorem collapseAux_true_cons_pos (a : Nat) (rest : List Nat)
    (h : isPySpace a = true) :
    collapseAux true (a :: rest) = collapseAux true rest := by
  simp [collapseAux, h]

theorem collapseAux_false_cons_pos (a : Nat) (rest : List Nat)
    (h : isPySpace a = true) :
    collapseAux false (a :: rest) = 32 :: collapseAux true rest := by
  simp [collapseAux, h]

theorem collapseAux_cons_neg (b : Bool) (a : Nat) (rest : List Nat)
    (h : isPySpace a = false) :
    collapseAux b (a :: rest) = a :: collapseAux false rest := by
  cases b <;> simp [collapseAux, h]

theorem mem_collapseAux (l : List Nat) :
    ∀ b c, c ∈ collapseAux b l → c = 32 ∨ (c ∈ l ∧ isPySpace c = false) := by
  induction l with
  | nil => intro b c h; cases b <;> simp [collapseAux] at h
  | cons a rest ih =>
    intro b c h
    cases ha : isPySpace a with
    | true =>
      cases b with
      | true =>
        rw [collapseAux_true_cons_pos a rest ha] at h
        rcases ih true c h with h32 | ⟨hm, hs⟩
        · exact Or.inl h32
        · exact Or.inr ⟨List.mem_cons_of_mem a hm, hs⟩
      | false =>
        rw [collapseAux_false_cons_pos a rest ha] at h
        rcases List.mem_cons.mp h with rfl | h'
        · exact Or.inl rfl
        · rcases ih true c h' with h32 | ⟨hm, hs⟩
          · exact Or.inl h32
          · exact Or.inr ⟨List.mem_cons_of_mem a hm, hs⟩
    | false =>
      rw [collapseAux_cons_neg b a rest ha] at h
      rcases List.mem_cons.mp h with rfl | h'
      · exact Or.inr ⟨List.mem_cons_self c rest, ha⟩
      · rcases ih false c h' with h32 | ⟨hm, hs⟩
        · exact Or.inl h32
        · exact Or.inr ⟨List.mem_cons_of_mem a hm, hs⟩

theorem collapseAux_true_head (l : List Nat) :
    HeadNoSpace (collapseAux true l) := by
  induction l with
  | nil => intro c h; simp [collapseAux] at h
  | cons a rest ih =>
    intro c h
    cases ha : isPySpace a with
    | true =>
      rw [collapseAux_true_cons_pos a rest ha] at h
      exact ih c h
    | false =>
      rw [collapseAux_cons_neg true a rest ha] at h
      simp only [List.head?_cons, Option.some.injEq] at h
      subst h
      exact ha

theorem spacedOk_collapseAux (l : List Nat) :
    ∀ b, SpacedOk (collapseAux b l) := by
  induction l with
  | nil => intro b; cases b <;> exact List.chain'_nil
  | cons a rest ih =>
    intro b
    cases ha : isPySpace a with
    | true =>
      cases b with
      | true => rw [collapseAux_true_cons_pos a rest ha]; exact ih true
      | false =>
        rw [collapseAux_false_cons_pos a rest ha]
        refine List.chain'_cons'.mpr ⟨?_, ih true⟩
        intro y hy
        exact Or.inr (collapseAux_true_head rest y hy)
    | false =>
      rw [collapseAux_cons_neg b a rest ha]
      refine List.chain'_cons'.mpr ⟨?_, ih false⟩
      intro y _
      exact Or.inl ha

theorem collapseAux_eq_self (l : List Nat) (h1 : CleanedChars l)
    (h2 : SpacedOk l) :
    collapseAux false l = l ∧ (HeadNoSpace l → collapseAux true l = l) := by
  induction l with
  | nil => exact ⟨rfl, fun _ => rfl⟩
  | cons a rest ih =>
    have h1' : CleanedChars rest := fun c hc => h1 c (List.mem_cons_of_mem a hc)
    have hsplit := List.chain'_cons'.mp h2
    have ih' := ih h1' hsplit.2
    cases ha : isPySpace a with
    | true =>
      have ha32 : a = 32 := by
        have := h1 a (List.mem_cons_self a rest)
        simp only [cleanChar, Bool.and_eq_true, Bool.or_eq_true, Bool.not_eq_true',
          beq_iff_eq] at this
        rcases this.2 with h' | h'
        · rw [ha] at h'; cases h'
        · exact h'
      have hrest : HeadNoSpace rest := by
        intro c hc
        rcases hsplit.1 c hc with h' | h'
        · rw [ha] at h'; cases h'
        · exact h'
      constructor
      · rw [collapseAux_false_cons_pos a rest ha, ih'.2 hrest, ha32]
      · intro hhead
        have := hhead a rfl
        rw [ha] at this; cases this
    | false =>
      constructor
      · rw [collapseAux_cons_neg false a rest ha, ih'.1]
      · intro _
        rw [collapseAux_cons_neg true a rest ha, ih'.1]

theorem cleanedChars_collapse (l : List Nat)
    (h : ∀ c ∈ l, keepChar c = true ∧ pyLower c = c) (b : Bool) :
    CleanedChars (collapseAux b l) := by
  intro c hc
  rcases mem_collapseAux l b c hc with rfl | ⟨hm, hs⟩
  · decide
  · rcases h c hm with ⟨hk, hl⟩
    simp [cleanChar, hk, hl, hs]

/-- The character-level stage of `normalize_company` (everything before the
suffix loop). -/
def cleanStage (s : List Nat) : List Nat :=
  pyStrip (collapseSpaces (((pyStrip s).map pyLower).filter keepChar))

theorem normalize_eq_fold (s : List Nat) (h : s ≠ []) :
    normalize_company s = companySuffixes.foldl stripSuffixStep (cleanStage s) := by
  simp [normalize_company, cleanStage, collapseSpaces, h]

theorem cleaned_cleanStage (s : List Nat) : Cleaned (cleanStage s) := by
  have hu : ∀ c ∈ ((pyStrip s).map pyLower).filter keepChar,
      keepChar c = true ∧ pyLower c = c := by
    intro c hc
    refine ⟨List.of_mem_filter hc, ?_⟩
    have := List.mem_filter.mp hc
    rcases List.mem_map.mp this.1 with ⟨d, _, rfl⟩
    exact pyLower_idem d
  exact cleaned_pyStrip _ (cleanedChars_collapse _ hu false)
    (spacedOk_collapseAux _ false)

theorem cleaned_stripSuffixStep (t suf : List Nat) (h : Cleaned t) :
    Cleaned (stripSuffixStep t suf) := by
  unfold stripSuffixStep
  split
  · refine cleaned_pyStrip _ ?_ ?_
    · exact fun c hc => h.1 c (List.mem_of_mem_take hc)
    · have htp := List.take_prefix (t.length - suf.length) t
      exact List.Chain'.prefix h.2.1 htp
  · exact h

theorem cleaned_fold (sufs : List (List Nat)) :
    ∀ t, Cleaned t → Cleaned (List.foldl stripSuffixStep t sufs) := by
  induction sufs with
  | nil => intro t h; exact h
  | cons suf rest ih =>
    intro t h
    exact ih _ (cleaned_stripSuffixStep t suf h)

theorem cleaned_nil : Cleaned ([] : List Nat) := by
  refine ⟨fun c hc => by simp at hc, by simp [SpacedOk], ?_, ?_⟩
  · intro c hc; simp at hc
  · intro c hc; simp at hc

theorem normalize_company_nil : normalize_company [] = [] := by
  simp [normalize_company]

theorem cleaned_normalize (s : List Nat) : Cleaned (normalize_company s) := by
  by_cases h : s = []
  · subst h
    rw [normalize_company_nil]
    exact cleaned_nil
  · rw [normalize_eq_fold s h]
    exact cleaned_fold companySuffixes _ (cleaned_cleanStage s)

theorem cleanStage_eq_self (t : List Nat) (h : Cleaned t) : cleanStage t = t := by
  obtain ⟨hch, hsp, hh, hl⟩ := h
  unfold cleanStage
  rw [pyStrip_eq_self t hh hl]
  have hmap : t.map pyLower = t := by
    have : t.map pyLower = t.map id := by
      apply List.map_congr_left
      intro c hc
      have := hch c hc
      simp only [cleanChar, Bool.and_eq_true, beq_iff_eq] at this
      exact this.1.2
    simpa using this
  rw [hmap]
  have hfil : t.filter keepChar = t := by
    apply List.filter_eq_self.mpr
    intro c hc
    have := hch c hc
    simp only [cleanChar, Bool.and_eq_true] at this
    exact this.1.1
  rw [hfil]
  have hcol : collapseSpaces t = t := (collapseAux_eq_self t hch hsp).1
  rw [show collapseSpaces t = collapseAux false t from rfl] at hcol
  rw [show collapseSpaces t = collapseAux false t from rfl, hcol]
  exact pyStrip_eq_self t hh hl

theorem fold_id_of_no_suffix (t : List Nat) :
    ∀ sufs : List (List Nat), (∀ suf ∈ sufs, ¬ suf <:+ t) →
      List.foldl stripSuffixStep t sufs = t := by
  intro sufs
  induction sufs with
  | nil => intro _; rfl
  | cons suf rest ih =>
    intro h
    have hstep : stripSuffixStep t suf = t := by
      unfold stripSuffixStep
      rw [if_neg (h suf (List.mem_cons_self suf rest))]
    rw [List.foldl_cons, hstep]
    exact ih fun s hs => h s (List.mem_cons_of_mem suf hs)

theorem normalize_idem_of_no_suffix (s : List Nat)
    (h : ∀ suf ∈ companySuffixes, ¬ suf <:+ normalize_company s) :
    normalize_company (normalize_company s) = normalize_company s := by
  by_cases hn : normalize_company s = []
  · rw [hn, normalize_company_nil]
  · rw [normalize_eq_fold _ hn,
      cleanStage_eq_self _ (cleaned_normalize s),
      fold_id_of_no_suffix _ companySuffixes h]

/-- C5, amended: `normalize_company` is deterministic and maps
`"Acme Inc."` and `"ACME, INC"` to the same key, and applying it twice is a
fixed point for every input whose normalized form does not itself end with
one of the nine stripped company suffixes.  (Unrestricted idempotence fails:
the suffix loop removes each suffix at most once per pass, see the
counterexample theorem.) -/
theorem normalize_company_stable_c5 :
    normalize_company (pyStr "Acme Inc.") = normalize_company (pyStr "ACME, INC") ∧
    ∀ s : List Nat, (∀ suf ∈ companySuffixes, ¬ suf <:+ normalize_company s) →
      normalize_company (normalize_company s) = normalize_company s :=
  ⟨by decide, normalize_idem_of_no_suffix⟩

/-- C5, counterexample to the claim as stated: normalization applied twice is
not a fixed point on `"acme inc inc"` — one pass yields `"acme inc"`, a
second pass strips a further `" inc"` and yields `"acme"`. -/
theorem normalize_company_not_idempotent_c5 :
    normalize_company (normalize_company (pyStr "acme inc inc")) ≠
      normalize_company (pyStr "acme inc inc") := by decide

/-- Witness for `normalize_company_stable_c5` at `s = "Acme Inc."`, whose
normalization `"acme"` ends in no company suffix. -/
theorem normalize_company_stable_c5_witness :
    (∀ suf ∈ companySuffixes, ¬ suf <:+ normalize_company (pyStr "Acme Inc.")) ∧
      normalize_company (normalize_company (pyStr "Acme Inc.")) =
        normalize_company (pyStr "Acme Inc.") :=
  ⟨by decide, normalize_company_stable_c5.2 _ (by decide)⟩

/-! ### Window calculator (dashboard.py) -/

/-- Python `date.weekday()` for a date given by its proleptic Gregorian
ordinal (`date.toordinal()`): ordinal 1 (0001-01-01) is a Monday, so
Mon=0 … Sat=5, Sun=6. -/
def pyWeekday (d : ℤ) : ℤ := (d - 1) % 7

/-- `most_recent_completed_week` (dashboard.py lines 73–85), over date
ordinals; `timedelta(days=k)` subtraction is integer subtraction. -/
def most_recent_completed_week (today : ℤ) : ℤ × ℤ :=
  let dss := (pyWeekday today - 5) % 7
  let dss := if dss = 0 then 7 else dss
  let e := today - dss
  (e - 6, e)

/-- C3: the most recent completed week ends on a Saturday strictly before
`today`, starts six days earlier on a Sunday, and when `today` is itself a
Saturday the returned week ends seven days earlier, not today. -/
theorem most_recent_completed_week_c3 (today : ℤ) :
    pyWeekday (most_recent_completed_week today).2 = 5 ∧
    (most_recent_completed_week today).2 < today ∧
    (most_recent_completed_week today).1 = (most_recent_completed_week today).2 - 6 ∧
    pyWeekday (most_recent_completed_week today).1 = 6 ∧
    (pyWeekday today = 5 → (most_recent_completed_week today).2 = today - 7) := by
  simp only [most_recent_completed_week, pyWeekday]
  split_ifs with h <;>
    exact ⟨by omega, by omega, by simp, by omega, by omega⟩

/-- Witness for `most_recent_completed_week_c3`: ordinal 6 (0001-01-06) is a
Saturday, and the returned week ends seven days before it. -/
theorem most_recent_completed_week_c3_witness :
    pyWeekday 6 = 5 ∧ (most_recent_completed_week 6).2 = 6 - 7 :=
  ⟨by decide, (most_recent_completed_week_c3 6).2.2.2.2 (by decide)⟩

/-- A Python `datetime.date` as a year/month/day triple. -/
structure PyDate where
  year : ℕ
  month : ℕ
  day : ℕ
deriving DecidableEq, Repr

/-- Comparison of dates, agreeing with comparison of their zero-padded ISO
`yyyy-mm-dd` strings (the form the sqlite date-range predicates compare). -/
def dateLt (a b : PyDate) : Prop :=
  a.year < b.year ∨ (a.year = b.year ∧
    (a.month < b.month ∨ (a.month = b.month ∧ a.day < b.day)))

def dateLe (a b : PyDate) : Prop := dateLt a b ∨ a = b

instance (a b : PyDate) : Decidable (dateLt a b) := by
  unfold dateLt; infer_instance

instance (a b : PyDate) : Decidable (dateLe a b) := by
  unfold dateLe; infer_instance

theorem dateLt_irrefl (a : PyDate) : ¬ dateLt a a := by
  unfold dateLt
  omega

theorem dateLe_iff (a b : PyDate) : dateLe a b ↔
    (a.year < b.year ∨ (a.year = b.year ∧
      (a.month < b.month ∨ (a.month = b.month ∧ a.day ≤ b.day)))) := by
  unfold dateLe dateLt
  cases a
  cases b
  simp only [PyDate.mk.injEq]
  omega

/-- `month_start_end` (dashboard.py lines 101–107); `run_monthly`
(monitor.py lines 826–833) computes the same pair.  The month string
`yyyy-mm` is modelled by the pair `(y, m)` that `strptime` parses from it. -/
def month_start_end (y m : ℕ) : PyDate × PyDate :=
  let start : PyDate := ⟨y, m, 1⟩
  let e : PyDate := if m = 12 then ⟨y + 1, 1, 1⟩ else ⟨y, m + 1, 1⟩
  (start, e)

/-- Membership in a month window, as the sqlite predicates
`first_seen_run_date >= start AND first_seen_run_date < end` evaluate it
(monitor.py lines 847–848). -/
def inMonthWindow (d : PyDate) (w : PyDate × PyDate) : Prop :=
  dateLe w.1 d ∧ dateLt d w.2

/-- C7: for a valid month `1 ≤ m ≤ 12`, the window is half-open from the
first of the month to the first of the next month (December rolls over to
January of the next year), and a date equal to the end boundary is excluded
from the window and included in the next month's window. -/
theorem month_start_end_c7 (y m : ℕ) (h1 : 1 ≤ m) (h2 : m ≤ 12) :
    (month_start_end y m).1 = ⟨y, m, 1⟩ ∧
    (month_start_end y m).2 =
      (if m = 12 then (⟨y + 1, 1, 1⟩ : PyDate) else ⟨y, m + 1, 1⟩) ∧
    ¬ inMonthWindow (month_start_end y m).2 (month_start_end y m) ∧
    inMonthWindow (month_start_end y m).2
      (month_start_end (if m = 12 then y + 1 else y) (if m = 12 then 1 else m + 1)) := by
  refine ⟨rfl, rfl, fun hc => dateLt_irrefl _ hc.2, ?_⟩
  simp only [month_start_end, inMonthWindow, dateLe_iff]
  unfold dateLt
  split_ifs <;> simp_all

/-- Witness for `month_start_end_c7` at the December window of year 2025,
exercising the December→January rollover. -/
theorem month_start_end_c7_witness :
    (month_start_end 2025 12).2 = (⟨2026, 1, 1⟩ : PyDate) ∧
      inMonthWindow (month_start_end 2025 12).2 (month_start_end 2026 1) :=
  ⟨by decide, by
    have h := (month_start_end_c7 2025 12 (by decide) (by decide)).2.2.2
    simpa using h⟩

/-! ### Overlap metric (dashboard.py) -/

/-- `still_open = window_ids.intersection(open_now_ids)`
(dashboard.py line 1108). -/
def still_open {α : Type} [DecidableEq α] (window_ids open_now_ids : Finset α) :
    Finset α :=
  window_ids ∩ open_now_ids

/-- The still-open rate from its two counts, as computed both at
dashboard.py line 1112 and by `upsert_company_still_open_monthly`
(lines 522–524) / `upsert_company_still_open_weekly3` (lines 599–601):
zero when the window is empty, otherwise the exact quotient (Python float
division of the two small integer counts, modelled as an exact rational). -/
def still_open_rate_of_counts (still_open_jobs window_jobs : ℕ) : ℚ :=
  if 0 < window_jobs then (still_open_jobs : ℚ) / (window_jobs : ℚ) else 0

/-- The rate as computed for a window/open-now pair of identifier sets. -/
def still_open_rate {α : Type} [DecidableEq α]
    (window_ids open_now_ids : Finset α) : ℚ :=
  still_open_rate_of_counts (still_open window_ids open_now_ids).card
    window_ids.card

/-- C4: the still-open count is the cardinality of the intersection, the
stored rate is `|W ∩ O| / |W|` for non-empty windows and `0` for empty ones
(no division error), the rate always lies in `[0, 1]`, and on the window
`{A,B,C}` against open-now `{B,C,D}` the count is 2 and the rate is 2/3. -/
theorem still_open_rate_c4 :
    (∀ (W O : Finset String),
      still_open W O = W ∩ O ∧
      0 ≤ still_open_rate W O ∧
      still_open_rate W O ≤ 1 ∧
      (W = ∅ → still_open_rate W O = 0) ∧
      (W ≠ ∅ → still_open_rate W O = ((W ∩ O).card : ℚ) / (W.card : ℚ))) ∧
    (still_open ({"A", "B", "C"} : Finset String) {"B", "C", "D"}).card = 2 ∧
    still_open_rate ({"A", "B", "C"} : Finset String) {"B", "C", "D"} = 2 / 3 := by
  have hcard : ∀ (W O : Finset String),
      (still_open W O).card ≤ W.card := by
    intro W O
    exact Finset.card_le_card (Finset.inter_subset_left)
  refine ⟨fun W O => ⟨rfl, ?_, ?_, ?_, ?_⟩, ?_, ?_⟩
  · unfold still_open_rate still_open_rate_of_counts
    split
    · positivity
    · exact le_refl 0
  · unfold still_open_rate still_open_rate_of_counts
    split
    · next h =>
      rw [div_le_one (by exact_mod_cast h)]
      exact_mod_cast hcard W O
    · exact zero_le_one
  · intro hW
    subst hW
    simp [still_open_rate, still_open_rate_of_counts, still_open]
  · intro hW
    have hpos : 0 < W.card := Finset.card_pos.mpr (Finset.nonempty_iff_ne_empty.mpr hW)
    unfold still_open_rate still_open_rate_of_counts still_open
    rw [if_pos hpos]
  · decide
  · have h2 : (still_open ({"A", "B", "C"} : Finset String) {"B", "C", "D"}).card = 2 := by
      decide
    have h3 : ({"A", "B", "C"} : Finset String).card = 3 := by decide
    unfold still_open_rate still_open_rate_of_counts
    rw [h2, h3]
    norm_num

/-- Witness for `still_open_rate_c4` at the empty window. -/
theorem still_open_rate_c4_witness :
    still_open_rate (∅ : Finset String) ∅ = 0 :=
  ((still_open_rate_c4.1 ∅ ∅).2.2.2.1) rfl

/-! ### Hiring-delay flags (dashboard.py `build_trends_page`) -/

/-- `slowdown_flag` (dashboard.py lines 1272–1279).  The stored float rate
is modelled as an exact rational; the threshold `0.50` is exactly `1/2`. -/
def slowdown_flag (window_jobs still_open_jobs : ℕ) (still_open_rate : ℚ) : Bool :=
  if window_jobs < 3 then false
  else if still_open_jobs ≥ 5 then true
  else if still_open_rate ≥ 1 / 2 then true
  else false

/-- One row of the `company_still_open_weekly3` table as read back by
`build_trends_page` (window jobs, still-open count, stored rate). -/
structure WeekPoint where
  window_jobs : ℕ
  still_open : ℕ
  rate : ℚ
deriving DecidableEq, Repr

/-- The 3-week trend flag of `build_trends_page` (dashboard.py lines
1324–1360) as a function of one company's three weekly records (oldest,
mid, newest): a company whose summed window jobs are below 6 is skipped
(`continue`, line 1338–1339) before the disjunction `is_flag` (line 1344)
is evaluated. -/
def trend_flag (oldest mid newest : WeekPoint) : Bool :=
  let so_tot := oldest.still_open + mid.still_open + newest.still_open
  let w_tot := oldest.window_jobs + mid.window_jobs + newest.window_jobs
  if w_tot < 6 then false
  else
    let avg_rate := (oldest.rate + mid.rate + newest.rate) / 3
    let delta := newest.rate - oldest.rate
    decide ((avg_rate ≥ 45 / 100 ∧ so_tot ≥ 6) ∨
      (delta ≥ 15 / 100 ∧ so_tot ≥ 4) ∨
      (newest.rate ≥ 60 / 100 ∧ newest.still_open ≥ 3))

/-- C6, counterexample to the claim as stated: with no jobs in the two older
weeks and 5 window jobs / 3 still open (rate 3/5) in the newest week, the
newest-week disjunct of the claimed condition holds (rate 3/5 ≥ 0.60 and
still-open 3 ≥ 3), yet the code does not flag the company: the total of 5
window jobs is below the additional `w_tot < 6` skip threshold. -/
theorem trend_flag_c6_counterexample :
    trend_flag ⟨0, 0, 0⟩ ⟨0, 0, 0⟩ ⟨5, 3, 3 / 5⟩ = false ∧
      ((3 : ℚ) / 5 ≥ 60 / 100 ∧ (3 : ℕ) ≥ 3) := by
  refine ⟨by decide, by norm_num, le_refl 3⟩

/-- C6, amended: the monthly flag is exactly
`window_jobs ≥ 3 ∧ (still_open ≥ 5 ∨ rate ≥ 1/2)`, and the 3-week trend
flag is exactly the claimed three-way disjunction **under the additional
condition** that the three weeks' summed window jobs are at least 6 (the
code skips a company otherwise). -/
theorem slowdown_trend_flags_c6 :
    (∀ (w so : ℕ) (r : ℚ), slowdown_flag w so r = true ↔
      (3 ≤ w ∧ (5 ≤ so ∨ 1 / 2 ≤ r))) ∧
    (∀ oldest mid newest : WeekPoint,
      trend_flag oldest mid newest = true ↔
        (6 ≤ oldest.window_jobs + mid.window_jobs + newest.window_jobs ∧
          (((oldest.rate + mid.rate + newest.rate) / 3 ≥ 45 / 100 ∧
              oldest.still_open + mid.still_open + newest.still_open ≥ 6) ∨
            (newest.rate - oldest.rate ≥ 15 / 100 ∧
              oldest.still_open + mid.still_open + newest.still_open ≥ 4) ∨
            (newest.rate ≥ 60 / 100 ∧ newest.still_open ≥ 3)))) := by
  constructor
  · intro w so r
    unfold slowdown_flag
    split_ifs with h1 h2 h3
    · simp only [Bool.false_eq_true, false_iff]
      intro hc
      omega
    · simp only [true_iff]
      exact ⟨by omega, Or.inl h2⟩
    · simp only [true_iff]
      exact ⟨by omega, Or.inr h3⟩
    · simp only [Bool.false_eq_true, false_iff]
      intro hc
      rcases hc.2 with h | h
      · exact h2 h
      · exact h3 h
  · intro oldest mid newest
    simp only [trend_flag]
    split_ifs with h1
    · simp only [Bool.false_eq_true, false_iff]
      intro hc
      omega
    · simp only [decide_eq_true_eq]
      constructor
      · intro hp
        exact ⟨by omega, hp⟩
      · intro hq
        exact hq.2

/-! ### Upstream job records (the JSON dicts handed to the monitor)

Values are modelled by their Python `str()` images; a `none` field models a
key that is absent or whose value is `None` (which `safe_get` treats
alike). -/

structure JobRecord where
  job_id : Option (List Nat) := none
  employer_name : Option (List Nat) := none
  job_title : Option (List Nat) := none
  job_publisher : Option (List Nat) := none
  job_employment_type : Option (List Nat) := none
  job_city : Option (List Nat) := none
  job_location_city : Option (List Nat) := none
  job_state : Option (List Nat) := none
  job_location_state : Option (List Nat) := none
  job_country : Option (List Nat) := none
  job_posted_at_datetime_utc : Option (List Nat) := none
  job_posted_at_datetime : Option (List Nat) := none
  job_posted_at : Option (List Nat) := none
  job_posted_at_timestamp : Option (List Nat) := none
  job_apply_link : Option (List Nat) := none
  job_description : Option (List Nat) := none
  job_highlights : Option (List Nat) := none
  job_summary : Option (List Nat) := none
  job_salary : Option (List Nat) := none
  salary : Option (List Nat) := none
  job_salary_range : Option (List Nat) := none
  job_salary_formatted : Option (List Nat) := none
  job_min_salary : Option (List Nat) := none
  job_salary_min : Option (List Nat) := none
  min_salary : Option (List Nat) := none
  job_max_salary : Option (List Nat) := none
  job_salary_max : Option (List Nat) := none
  max_salary : Option (List Nat) := none
  job_salary_currency : Option (List Nat) := none
  salary_currency : Option (List Nat) := none
  currency : Option (List Nat) := none
  job_salary_period : Option (List Nat) := none
  salary_period : Option (List Nat) := none
deriving DecidableEq, Repr

/-- `safe_get(d, keys, None)` (monitor.py lines 57–61): value of the first
key that is present and not `None`. -/
def firstSome : List (Option (List Nat)) → Option (List Nat)
  | [] => none
  | some x :: _ => some x
  | none :: rest => firstSome rest

/-- Python `str(x or "")` for an optional string value: `None` and `""` are
falsy and give `""`. -/
def orEmpty (x : Option (List Nat)) : List Nat := x.getD []

/-- `parse_job_posted_at` (monitor.py lines 64–77): probe the candidate
posted-at keys in order, `None` if all are missing. -/
def parse_job_posted_at (job : JobRecord) : Option (List Nat) :=
  firstSome [job.job_posted_at_datetime_utc, job.job_posted_at_datetime,
    job.job_posted_at, job.job_posted_at_timestamp]

/-! ### Heuristic tagger (monitor.py `derive_fields`, lines 316–473) -/

/-- Characters kept by `re.sub(r"[^a-z0-9+\s/.-]", " ", text)` (monitor.py
line 323); every other character is replaced by a space. -/
def dfKeep (c : Nat) : Bool :=
  (97 ≤ c && c ≤ 122) || (48 ≤ c && c ≤ 57) || c == 43 || isPySpace c ||
    c == 47 || c == 46 || c == 45

/-- The sanitized text of `derive_fields` (monitor.py lines 322–324):
title, description and employer joined by newlines, lowercased, disallowed
characters replaced by spaces, whitespace runs collapsed, stripped. -/
def derive_fields_text (title desc employer : List Nat) : List Nat :=
  let text := title ++ 10 :: (desc ++ 10 :: employer)
  let replaced := (text.map pyLower).map fun c => if dfKeep c then c else 32
  pyStrip (collapseSpaces replaced)

/-- `has_phrase(p)` (monitor.py line 328): plain substring containment. -/
def has_phrase (text p : List Nat) : Bool := decide (p <:+: text)

/-- The character class `[a-z0-9]` of the word-boundary lookarounds in
`has_word` (monitor.py line 332). -/
def isTagWordChar (c : Nat) : Bool :=
  (97 ≤ c && c ≤ 122) || (48 ≤ c && c ≤ 57)

/-- One candidate match position for the word-boundary search
`re.search` performs in `has_word`: the word `w` at the start of `t`, with
`prev` the character just before `t` in the whole text (`none` at the very
start). -/
def wordAt (w : List Nat) (prev : Option Nat) (t : List Nat) : Bool :=
  (match prev with
   | none => true
   | some c => !isTagWordChar c) &&
  w.isPrefixOf t &&
  (match t.drop w.length with
   | [] => true
   | c :: _ => !isTagWordChar c)

def hasWordFrom (w : List Nat) : Option Nat → List Nat → Bool
  | prev, [] => wordAt w prev []
  | prev, c :: rest => wordAt w prev (c :: rest) || hasWordFrom w (some c) rest

/-- `has_word(w)` (monitor.py lines 331–332): `w` occurs in `text` with no
`[a-z0-9]` character adjacent on either side. -/
def has_word (text w : List Nat) : Bool := hasWordFrom w none text

/-- `tech_phrases` (monitor.py lines 338–347). -/
def tech_phrases : List (List Nat) :=
  [pyStr "software", pyStr "developer", pyStr "machine learning", pyStr "cloud",
   pyStr "cybersecurity", pyStr "devops", pyStr "full stack", pyStr "fullstack",
   pyStr "backend", pyStr "frontend", pyStr "data engineer", pyStr "data scientist",
   pyStr "database", pyStr "network engineer", pyStr "systems engineer",
   pyStr "sre", pyStr "programmer",
   pyStr "aws", pyStr "azure", pyStr "gcp", pyStr "cyber",
   pyStr "python", pyStr "java", pyStr "javascript", pyStr "typescript",
   pyStr "react", pyStr "sql",
   pyStr "system administrator"]

/-- `tech_words` (monitor.py line 349). -/
def tech_words : List (List Nat) :=
  [pyStr "ai", pyStr "ml", pyStr "api", pyStr "etl"]

/-- `tech_exclude_phrases` (monitor.py lines 351–371). -/
def tech_exclude_phrases : List (List Nat) :=
  [pyStr "automotive technician",
   pyStr "maintenance technician",
   pyStr "service technician",
   pyStr "hvac technician",
   pyStr "repair technician",
   pyStr "field technician",
   pyStr "pharmacy technician",
   pyStr "nail technician",
   pyStr "behavior technician",
   pyStr "veterinary technician",
   pyStr "medical technician",
   pyStr "lab technician",
   pyStr "manufacturing technician",
   pyStr "it support",
   pyStr "help desk",
   pyStr "desktop support",
   pyStr "computer teacher",
   pyStr "technology teacher",
   pyStr "educational technology"]

/-- `tech_exclude_words` (monitor.py lines 373–381). -/
def tech_exclude_words : List (List Nat) :=
  [pyStr "custodian",
   pyStr "janitor",
   pyStr "plumber",
   pyStr "electrician",
   pyStr "mechanic",
   pyStr "installer",
   pyStr "health"]

/-- `life_phrases` (monitor.py lines 397–402). -/
def life_phrases : List (List Nat) :=
  [pyStr "biotech", pyStr "bioinformatics", pyStr "laboratory", pyStr "clinical",
   pyStr "pharma", pyStr "assay", pyStr "regulatory", pyStr "molecular",
   pyStr "genomics", pyStr "microbiology", pyStr "biologist", pyStr "scientist",
   pyStr "chemist", pyStr "gene", pyStr "therapeutics", pyStr "biosciences",
   pyStr "biologics", pyStr "diagnostics"]

/-- `life_words` (monitor.py line 404). -/
def life_words : List (List Nat) :=
  [pyStr "lab", pyStr "qc", pyStr "qa"]

/-- `life_exclude_phrases` (monitor.py lines 406–409). -/
def life_exclude_phrases : List (List Nat) :=
  [pyStr "nurse", pyStr "doctor", pyStr "physician", pyStr "dentist",
   pyStr "dental", pyStr "hygienist", pyStr "hospital"]

/-- `life_exclude_words` (monitor.py line 411). -/
def life_exclude_words : List (List Nat) :=
  [pyStr "rn", pyStr "cna"]

/-- `aero_phrases` (monitor.py lines 427–433). -/
def aero_phrases : List (List Nat) :=
  [pyStr "aerospace", pyStr "satellite", pyStr "space", pyStr "radar",
   pyStr "defense", pyStr "spacecraft", pyStr "ground station",
   pyStr "communications satellite", pyStr "sigint", pyStr "clearance",
   pyStr "cleared", pyStr "aeronautics", pyStr "space systems",
   pyStr "defense systems", pyStr "satcom", pyStr "navy", pyStr "army"]

/-- `aero_words` (monitor.py line 435). -/
def aero_words : List (List Nat) :=
  [pyStr "rf", pyStr "dod"]

/-- `aero_tokens` (monitor.py lines 437–440). -/
def aero_tokens : List (List Nat) :=
  [pyStr "ts/sci", pyStr "ts sci", pyStr "secret clearance", pyStr "top secret"]

/-- `retail_blockers` (monitor.py lines 452–456). -/
def retail_blockers : List (List Nat) :=
  [pyStr "cashier", pyStr "barista", pyStr "server", pyStr "waiter",
   pyStr "waitress", pyStr "crew member", pyStr "store associate",
   pyStr "retail associate", pyStr "stock associate", pyStr "teacher"]

/-- `tech_excluded` (monitor.py lines 383–386). -/
def tech_excluded (text : List Nat) : Bool :=
  tech_exclude_phrases.any (has_phrase text) ||
    tech_exclude_words.any (has_word text)

/-- `tech_hit` (monitor.py lines 388–391). -/
def tech_hit (text : List Nat) : Bool :=
  (tech_phrases.any (has_phrase text) || tech_words.any (has_word text)) &&
    !tech_excluded text

/-- `life_excluded` (monitor.py lines 413–416). -/
def life_excluded (text : List Nat) : Bool :=
  life_exclude_phrases.any (has_phrase text) ||
    life_exclude_words.any (has_word text)

/-- `life_hit` (monitor.py lines 418–421). -/
def life_hit (text : List Nat) : Bool :=
  (life_phrases.any (has_phrase text) || life_words.any (has_word text)) &&
    !life_excluded text

/-- `aero_hit` (monitor.py lines 442–446). -/
def aero_hit (text : List Nat) : Bool :=
  aero_phrases.any (has_phrase text) || aero_words.any (has_word text) ||
    aero_tokens.any (has_phrase text)

/-- `is_retailish` (monitor.py line 458): plain substring containment of a
retail blocker. -/
def is_retailish (text : List Nat) : Bool :=
  retail_blockers.any fun b => decide (b <:+: text)

/-- The tag set applied by `derive_fields` (monitor.py lines 464–471),
listed in the sorted order that `",".join(sorted(tags))` serializes
(`aero_defense_sat` < `life_sciences` < `technology`). -/
def derive_fields_tags (text : List Nat) : List (List Nat) :=
  (if aero_hit text && !is_retailish text then [pyStr "aero_defense_sat"] else []) ++
  (if life_hit text then [pyStr "life_sciences"] else []) ++
  (if tech_hit text && !is_retailish text then [pyStr "technology"] else [])

/-- Python `",".join(items)`. -/
def joinComma : List (List Nat) → List Nat
  | [] => []
  | [x] => x
  | x :: xs => x ++ 44 :: joinComma xs

/-- `derive_fields(job)` (monitor.py lines 316–473): extract and lowercase
title, description (first of the three description keys) and employer name,
then serialize the sorted tag set of the sanitized text. -/
def derive_fields (job : JobRecord) : List Nat :=
  let title := (orEmpty job.job_title).map pyLower
  let desc_raw := firstSome [job.job_description, job.job_highlights, job.job_summary]
  let desc := (orEmpty desc_raw).map pyLower
  let employer := (orEmpty job.employer_name).map pyLower
  joinComma (derive_fields_tags (derive_fields_text title desc employer))

/-! ### Requirement tags and salary extraction (monitor.py) -/

/-- The `no_degree` keyword list of `derive_job_requirements`
(monitor.py lines 287–290). -/
def req_no_degree_keys : List (List Nat) :=
  [pyStr "no degree", pyStr "no-degree", pyStr "no diploma",
   pyStr "no diploma required", pyStr "high school or equivalent",
   pyStr "high school diploma or equivalent"]

/-- The `no_experience` keyword list (monitor.py lines 293–296). -/
def req_no_experience_keys : List (List Nat) :=
  [pyStr "no experience", pyStr "entry level", pyStr "entry-level",
   pyStr "0 years", pyStr "zero years", pyStr "training provided",
   pyStr "no prior experience"]

/-- The `under_3_years_experience` keyword list (monitor.py lines 299–301). -/
def req_under3_keys : List (List Nat) :=
  [pyStr "1 year", pyStr "one year", pyStr "2 years", pyStr "two years",
   pyStr "1-2 years", pyStr "2+ years"]

/-- The `more_than_3_years_experience` keyword list (monitor.py
lines 304–307). -/
def req_over3_keys : List (List Nat) :=
  [pyStr "3 years", pyStr "3+ years", pyStr "four years", pyStr "4 years",
   pyStr "5 years", pyStr "6 years", pyStr "7 years", pyStr "8 years",
   pyStr "10 years", pyStr "5+ years"]

/-- `derive_job_requirements` (monitor.py lines 275–313): keyword scan of
the lowercased title and description, the over-3-years tag displacing the
under-3-years tag, serialized as the sorted comma join. -/
def derive_job_requirements (job : JobRecord) : List Nat :=
  let title := (orEmpty job.job_title).map pyLower
  let desc := (orEmpty (firstSome
    [job.job_description, job.job_highlights, job.job_summary])).map pyLower
  let text := title ++ 10 :: desc
  let no_degree := req_no_degree_keys.any (has_phrase text)
  let no_experience := req_no_experience_keys.any (has_phrase text)
  let under3 := req_under3_keys.any (has_phrase text)
  let over3 := req_over3_keys.any (has_phrase text)
  joinComma ((if over3 then [pyStr "more_than_3_years_experience"] else []) ++
    (if no_degree then [pyStr "no_degree"] else []) ++
    (if no_experience then [pyStr "no_experience"] else []) ++
    (if under3 && !over3 then [pyStr "under_3_years_experience"] else []))

/-- `extract_salary_text` (monitor.py lines 246–272).  Numeric salary
values are modelled by their decimal string images, so the f-string
interpolations `f"{min_sal}-{max_sal}"`, `f"{min_sal}+"`, `f"up to
{max_sal}"` and `f"{core} {tail}"` are concatenations. -/
def extract_salary_text (job : JobRecord) : List Nat :=
  let formatted := orEmpty (firstSome
    [job.job_salary, job.salary, job.job_salary_range, job.job_salary_formatted])
  if formatted ≠ [] then pyStrip formatted
  else
    let currency := pyStrip (orEmpty (firstSome
      [job.job_salary_currency, job.salary_currency, job.currency]))
    let period := pyStrip (orEmpty (firstSome
      [job.job_salary_period, job.salary_period]))
    let tail := pyStrip (currency ++ 32 :: period)
    match firstSome [job.job_min_salary, job.job_salary_min, job.min_salary],
      firstSome [job.job_max_salary, job.job_salary_max, job.max_salary] with
    | none, none => []
    | some mn, some mx => pyStrip ((mn ++ 45 :: mx) ++ 32 :: tail)
    | some mn, none => pyStrip ((mn ++ [43]) ++ 32 :: tail)
    | none, some mx => pyStrip ((pyStr "up to " ++ mx) ++ 32 :: tail)

/-! ### The jobs table and `insert_job_if_new` (monitor.py) -/

/-- One row of the sqlite `jobs` table (monitor.py lines 509–531), whose
primary key is `job_id`. -/
structure JobRow where
  job_id : List Nat
  employer_name : List Nat
  employer_norm : List Nat
  job_title : List Nat
  job_publisher : List Nat
  job_employment_type : List Nat
  job_city : List Nat
  job_state : List Nat
  job_country : List Nat
  job_posted_at : Option (List Nat)
  apply_link : List Nat
  job_requirements : List Nat
  fields : List Nat
  salary : List Nat
  search_query : List Nat
  first_seen_run_date : List Nat
  first_seen_utc : List Nat
deriving DecidableEq, Repr

/-- The row `insert_job_if_new` computes and inserts (monitor.py lines
621–657): stripped string fields, normalized employer, derived requirement
tags, the comma-wrapped sector-tag field, and the first-seen stamps from
the run date and `utc_now_iso()` (the `now_utc` parameter). -/
def buildJobRow (job : JobRecord) (search_query run_date now_utc : List Nat) :
    JobRow where
  job_id := pyStrip (orEmpty job.job_id)
  employer_name := pyStrip (orEmpty job.employer_name)
  employer_norm := normalize_company (pyStrip (orEmpty job.employer_name))
  job_title := pyStrip (orEmpty job.job_title)
  job_publisher := pyStrip (orEmpty job.job_publisher)
  job_employment_type := pyStrip (orEmpty job.job_employment_type)
  job_city := orEmpty (firstSome [job.job_city, job.job_location_city])
  job_state := orEmpty (firstSome [job.job_state, job.job_location_state])
  job_country := orEmpty job.job_country
  job_posted_at := parse_job_posted_at job
  apply_link := pyStrip (orEmpty job.job_apply_link)
  job_requirements := derive_job_requirements job
  fields := if derive_fields job ≠ [] then 44 :: derive_fields job ++ [44] else []
  salary := extract_salary_text job
  search_query := search_query
  first_seen_run_date := run_date
  first_seen_utc := now_utc

/-- `insert_job_if_new` (monitor.py lines 620–658).  A blank or missing
`job_id` returns `False` before touching the table.  The sqlite
`INSERT OR IGNORE` against the `job_id` primary key inserts only when no
row with that key exists, and `cur.rowcount == 1` exactly when the insert
happened.  The connection's table is the row list threaded through. -/
def insert_job_if_new (tbl : List JobRow) (job : JobRecord)
    (search_query run_date now_utc : List Nat) : Bool × List JobRow :=
  if pyStrip (orEmpty job.job_id) = [] then (false, tbl)
  else if tbl.any fun r => r.job_id == pyStrip (orEmpty job.job_id) then
    (false, tbl)
  else (true, tbl ++ [buildJobRow job search_query run_date now_utc])

theorem buildJobRow_job_id (job : JobRecord) (q d n : List Nat) :
    (buildJobRow job q d n).job_id = pyStrip (orEmpty job.job_id) := rfl

end MocoMonitor

namespace MocoMonitor

/-- C8: the sector tagger is a pure function of the title/description/
employer text (in this embedding `derive_fields` is a function of exactly
those fields), and on the title "Automotive Technician" it emits no tags at
all — in particular not `technology`.  The `"automotive technician"`
exclusion phrase matches the sanitized text (so any technology include-hit
would be vetoed), while no entry of the technology exclusion lists equals
`"technology"` itself. -/
theorem derive_fields_automotive_c8 :
    derive_fields { job_title := some (pyStr "Automotive Technician") } = [] ∧
    decide (pyStr "technology" ∈ derive_fields_tags
      (derive_fields_text ((pyStr "Automotive Technician").map pyLower) [] [])) = false ∧
    tech_excluded
      (derive_fields_text ((pyStr "Automotive Technician").map pyLower) [] []) = true ∧
    has_phrase
      (derive_fields_text ((pyStr "Automotive Technician").map pyLower) [] [])
      (pyStr "automotive technician") = true ∧
    decide (pyStr "technology" ∈ tech_exclude_phrases) = false ∧
    decide (pyStr "technology" ∈ tech_exclude_words) = false := by
  refine ⟨by decide, by decide, by decide, by decide, by decide, by decide⟩

/-- C10: whenever the sanitized text contains a retail blocker phrase
(`is_retailish`), the sector tag set contains neither `technology` nor
`aero_defense_sat`, while `life_sciences` is present exactly when the
life-sciences include/exclude rules (`life_hit`) match — the retail blocker
does not veto `life_sciences`. -/
theorem retail_blockers_c10 (text : List Nat) (h : is_retailish text = true) :
    pyStr "technology" ∉ derive_fields_tags text ∧
    pyStr "aero_defense_sat" ∉ derive_fields_tags text ∧
    (pyStr "life_sciences" ∈ derive_fields_tags text ↔ life_hit text = true) := by
  unfold derive_fields_tags
  rw [h]
  simp only [Bool.not_true, Bool.and_false, Bool.false_eq_true, if_false,
    List.nil_append, List.append_nil]
  by_cases hl : life_hit text = true
  · rw [if_pos hl]
    refine ⟨?_, ?_, ?_⟩
    · intro hc
      simp only [List.mem_singleton] at hc
      exact absurd hc (by decide)
    · intro hc
      simp only [List.mem_singleton] at hc
      exact absurd hc (by decide)
    · simp [hl]
  · rw [if_neg hl]
    refine ⟨List.not_mem_nil _, List.not_mem_nil _, by simp [hl]⟩

/-- Witness for `retail_blockers_c10` on the retail-blocked title
"Barista and lab aide" (which still matches the life-sciences rules via the
word "lab"). -/
theorem retail_blockers_c10_witness :
    is_retailish
      (derive_fields_text ((pyStr "Barista and lab aide").map pyLower) [] []) = true ∧
    (pyStr "technology" ∉ derive_fields_tags
        (derive_fields_text ((pyStr "Barista and lab aide").map pyLower) [] []) ∧
      pyStr "aero_defense_sat" ∉ derive_fields_tags
        (derive_fields_text ((pyStr "Barista and lab aide").map pyLower) [] []) ∧
      (pyStr "life_sciences" ∈ derive_fields_tags
          (derive_fields_text ((pyStr "Barista and lab aide").map pyLower) [] []) ↔
        life_hit
          (derive_fields_text ((pyStr "Barista and lab aide").map pyLower) [] []) = true)) :=
  ⟨by decide, retail_blockers_c10 _ (by decide)⟩

/-- C9: a record whose `job_id` is absent, `None`, or whitespace-blank
makes `insert_job_if_new` return `False` and leave the jobs table
unchanged. -/
theorem insert_job_if_new_blank_id_c9 (tbl : List JobRow) (job : JobRecord)
    (q d n : List Nat) (h : pyStrip (orEmpty job.job_id) = []) :
    insert_job_if_new tbl job q d n = (false, tbl) := by
  unfold insert_job_if_new
  rw [if_pos h]

/-- Witness for `insert_job_if_new_blank_id_c9` on a record whose `job_id`
is the whitespace string `"   "`. -/
theorem insert_job_if_new_blank_id_c9_witness :
    pyStrip (orEmpty ({ job_id := some (pyStr "   ") } : JobRecord).job_id) = [] ∧
    insert_job_if_new [] { job_id := some (pyStr "   ") }
      (pyStr "q") (pyStr "2026-02-01") (pyStr "ts") = (false, []) :=
  ⟨by decide, insert_job_if_new_blank_id_c9 [] _ _ _ _ (by decide)⟩

/-- C1: inserting two records with the same non-empty `job_id` into a table
not yet holding that key leaves exactly one row for that key; the first
call returns `True`, the second returns `False` and changes nothing — in
particular every stored column of the existing row (the first-seen fields
included) is untouched, since the table after the second call is equal to
the table after the first. -/
theorem insert_job_if_new_idempotent_c1 (tbl : List JobRow) (j1 j2 : JobRecord)
    (q1 d1 n1 q2 d2 n2 : List Nat)
    (hid : pyStrip (orEmpty j1.job_id) ≠ [])
    (hsame : pyStrip (orEmpty j2.job_id) = pyStrip (orEmpty j1.job_id))
    (hfresh : ∀ r ∈ tbl, r.job_id ≠ pyStrip (orEmpty j1.job_id)) :
    (insert_job_if_new tbl j1 q1 d1 n1).1 = true ∧
    (insert_job_if_new (insert_job_if_new tbl j1 q1 d1 n1).2 j2 q2 d2 n2).1 = false ∧
    (insert_job_if_new (insert_job_if_new tbl j1 q1 d1 n1).2 j2 q2 d2 n2).2 =
      (insert_job_if_new tbl j1 q1 d1 n1).2 ∧
    ((insert_job_if_new tbl j1 q1 d1 n1).2.filter
      fun r => r.job_id == pyStrip (orEmpty j1.job_id)).length = 1 := by
  have hany : (tbl.any fun r => r.job_id == pyStrip (orEmpty j1.job_id)) = false := by
    rw [List.any_eq_false]
    intro r hr
    simp only [beq_iff_eq]
    exact hfresh r hr
  have h1 : insert_job_if_new tbl j1 q1 d1 n1 =
      (true, tbl ++ [buildJobRow j1 q1 d1 n1]) := by
    unfold insert_job_if_new
    rw [if_neg hid]
    simp only [hany, Bool.false_eq_true, if_false]
  rw [h1]
  have hany2 : ((tbl ++ [buildJobRow j1 q1 d1 n1]).any
      fun r => r.job_id == pyStrip (orEmpty j2.job_id)) = true := by
    rw [List.any_eq_true]
    refine ⟨buildJobRow j1 q1 d1 n1,
      List.mem_append_right _ (List.mem_singleton_self _), ?_⟩
    rw [buildJobRow_job_id, hsame]
    exact beq_self_eq_true _
  have h2 : insert_job_if_new (tbl ++ [buildJobRow j1 q1 d1 n1]) j2 q2 d2 n2 =
      (false, tbl ++ [buildJobRow j1 q1 d1 n1]) := by
    unfold insert_job_if_new
    rw [if_neg (fun hc => hid (hsame ▸ hc))]
    simp only [hany2, if_true]
  rw [h2]
  refine ⟨rfl, rfl, rfl, ?_⟩
  rw [List.filter_append]
  have hfil1 : (tbl.filter fun r => r.job_id == pyStrip (orEmpty j1.job_id)) = [] := by
    rw [List.filter_eq_nil_iff]
    intro r hr
    simp only [beq_iff_eq]
    exact hfresh r hr
  rw [hfil1]
  simp [List.filter_cons, buildJobRow_job_id]

/-- Witness for `insert_job_if_new_idempotent_c1`: the record `J1` inserted
twice into the empty table. -/
theorem insert_job_if_new_idempotent_c1_witness :
    (insert_job_if_new [] { job_id := some (pyStr "J1") }
      (pyStr "q") (pyStr "2026-02-01") (pyStr "t1")).1 = true ∧
    (insert_job_if_new
      (insert_job_if_new [] { job_id := some (pyStr "J1") }
        (pyStr "q") (pyStr "2026-02-01") (pyStr "t1")).2
      { job_id := some (pyStr "J1") }
      (pyStr "q2") (pyStr "2026-02-02") (pyStr "t2")).1 = false ∧
    (insert_job_if_new
      (insert_job_if_new [] { job_id := some (pyStr "J1") }
        (pyStr "q") (pyStr "2026-02-01") (pyStr "t1")).2
      { job_id := some (pyStr "J1") }
      (pyStr "q2") (pyStr "2026-02-02") (pyStr "t2")).2 =
      (insert_job_if_new [] { job_id := some (pyStr "J1") }
        (pyStr "q") (pyStr "2026-02-01") (pyStr "t1")).2 ∧
    ((insert_job_if_new [] { job_id := some (pyStr "J1") }
      (pyStr "q") (pyStr "2026-02-01") (pyStr "t1")).2.filter
      fun r => r.job_id ==
        pyStrip (orEmpty ({ job_id := some (pyStr "J1") } : JobRecord).job_id)).length = 1 :=
  insert_job_if_new_idempotent_c1 [] _ _ _ _ _ _ _ _
    (by decide) (by decide) (by simp)

end MocoMonitor

namespace MocoMonitor

/-! ### Resilient API client (monitor.py `build_retry_session` lines
219–239, `JSearchClient.search` lines 488–504) -/

/-- The JSON value at the payload's `"data"` key: a list of job records, or
some other truthy JSON value; `none` models the key being absent or
`None`. -/
inductive JsonData
  | jlist (xs : List JobRecord)
  | jother
deriving DecidableEq, Repr

/-- A parsed response body (`resp.json()`). -/
structure Payload where
  data : Option JsonData
deriving DecidableEq, Repr

/-- `data = payload.get("data") or []` followed by
`return data if isinstance(data, list) else []` (monitor.py lines 503–504). -/
def payloadData : Payload → List JobRecord
  | ⟨none⟩ => []
  | ⟨some (.jlist xs)⟩ => xs
  | ⟨some .jother⟩ => []

/-- What one HTTP attempt inside the retry session produces: a network
(connect/read) failure, or a response with a status code and body. -/
inductive Attempt
  | timeout
  | response (status : Nat) (payload : Payload)
deriving DecidableEq, Repr

/-- The final outcome `session.get(...)` presents to `search`: a response,
or a raised `requests` exception (after exhausted retries on network
failures). -/
inductive SessionOutcome
  | response (status : Nat) (payload : Payload)
  | raised
deriving DecidableEq, Repr

/-- `status_forcelist` of `build_retry_session` (monitor.py line 229). -/
def statusForcelist : List Nat := [429, 500, 502, 503, 504]

/-- The retry loop of the session built by `build_retry_session`
(monitor.py lines 224–233: `Retry(total=6, ..., raise_on_status=False,
status_forcelist=[429, 500, 502, 503, 504])`): `fuel` is the remaining
retry budget and `attempts` the successive outcomes the network produces.
A retriable outcome (network failure, or a status in the forcelist)
consumes one retry while budget remains; with the budget exhausted a
network failure raises (`MaxRetryError`, surfaced by `requests` as a
`RequestException`), while a forcelist response is returned as-is because
`raise_on_status=False`; any other response is returned immediately.
`none` models an attempt list too short to finish. -/
def retryLoop : Nat → List Attempt → Option SessionOutcome
  | _, [] => none
  | fuel, .timeout :: rest =>
    match fuel with
    | 0 => some .raised
    | f + 1 => retryLoop f rest
  | fuel, .response st p :: rest =>
    if st ∈ statusForcelist then
      match fuel with
      | 0 => some (.response st p)
      | f + 1 => retryLoop f rest
    else some (.response st p)

/-- One `session.get` on the session of `build_retry_session`
(total retry budget 6). -/
def build_retry_session_run (attempts : List Attempt) : Option SessionOutcome :=
  retryLoop 6 attempts

/-- What `JSearchClient.search` can raise: the session's network exception,
or the `HTTPError` of `resp.raise_for_status()`; both are
`requests.exceptions.RequestException`s. -/
inductive ReqError
  | connectionError
  | httpError (status : Nat)
deriving DecidableEq, Repr

/-- `JSearchClient.search` (monitor.py lines 488–504) as a function of the
session outcome: propagate the session's exception, raise `HTTPError` from
`resp.raise_for_status()` on a 4xx/5xx final response, else return the
payload's `data` list. -/
def JSearchClient.search : SessionOutcome → Except ReqError (List JobRecord)
  | .raised => .error .connectionError
  | .response st p =>
    if 400 ≤ st ∧ st < 600 then .error (.httpError st)
    else .ok (payloadData p)

/-- The per-query fetch of `run_daily` (monitor.py lines 706–710): call
`search`, catch any `requests.exceptions.RequestException` and substitute
the empty list so the run continues with the next query. -/
def run_daily_fetch (o : SessionOutcome) : List JobRecord :=
  match JSearchClient.search o with
  | .ok jobs => jobs
  | .error _ => []

/-- An attempt the retry session retries on: a network failure, or a
response whose status is in the forcelist. -/
def retriable : Attempt → Prop
  | .timeout => True
  | .response st _ => st ∈ statusForcelist

instance (a : Attempt) : Decidable (retriable a) := by
  cases a <;> unfold retriable <;> infer_instance

theorem retryLoop_exhausted (attempts : List Attempt)
    (hall : ∀ a ∈ attempts, retriable a) :
    ∀ fuel o, retryLoop fuel attempts = some o →
      o = .raised ∨ ∃ st p, st ∈ statusForcelist ∧ o = .response st p := by
  induction attempts with
  | nil => intro fuel o h; simp [retryLoop] at h
  | cons a rest ih =>
    intro fuel o h
    cases a with
    | timeout =>
      cases fuel with
      | zero =>
        have h' : some SessionOutcome.raised = some o := h
        exact Or.inl (Option.some.inj h').symm
      | succ f =>
        exact ih (fun x hx => hall x (List.mem_cons_of_mem _ hx)) f o h
    | response st p =>
      have hst : st ∈ statusForcelist := hall _ (List.mem_cons_self _ _)
      cases fuel with
      | zero =>
        have h' : (if st ∈ statusForcelist then some (SessionOutcome.response st p)
            else some (SessionOutcome.response st p)) = some o := h
        rw [ite_self] at h'
        exact Or.inr ⟨st, p, hst, (Option.some.inj h').symm⟩
      | succ f =>
        have h' : (if st ∈ statusForcelist then retryLoop f rest
            else some (SessionOutcome.response st p)) = some o := h
        rw [if_pos hst] at h'
        exact ih (fun x hx => hall x (List.mem_cons_of_mem _ hx)) f o h'

/-- C2, counterexample to the claim as stated: seven successive 429
responses exhaust the retry budget; the session hands the final 429
response back (`raise_on_status=False`) and `search` then raises the
`HTTPError` of `resp.raise_for_status()` — it does not return the empty
list to its caller. -/
theorem search_raises_on_429_c2 :
    build_retry_session_run (List.replicate 7 (Attempt.response 429 ⟨none⟩)) =
      some (SessionOutcome.response 429 ⟨none⟩) ∧
    JSearchClient.search (SessionOutcome.response 429 ⟨none⟩) =
      Except.error (ReqError.httpError 429) ∧
    JSearchClient.search (SessionOutcome.response 429 ⟨none⟩) ≠
      Except.ok [] := by
  have h2 : JSearchClient.search (SessionOutcome.response 429 ⟨none⟩) =
      Except.error (ReqError.httpError 429) := rfl
  refine ⟨by decide, h2, ?_⟩
  rw [h2]
  exact fun hc => Except.noConfusion hc

/-- C2, amended: when every attempt fails retriably (persistent network
timeout, or persistent 429/500/502/503/504) and the retry budget is
exhausted, `JSearchClient.search` raises a `RequestException` rather than
returning a list; it is its caller `run_daily` that catches the exception
and substitutes the empty list for that one query so the run continues. -/
theorem search_retries_exhausted_c2 (attempts : List Attempt)
    (o : SessionOutcome)
    (hall : ∀ a ∈ attempts, retriable a)
    (hrun : build_retry_session_run attempts = some o) :
    (∃ e, JSearchClient.search o = .error e) ∧
    (∀ l, JSearchClient.search o ≠ .ok l) ∧
    run_daily_fetch o = [] := by
  have hshape := retryLoop_exhausted attempts hall 6 o hrun
  rcases hshape with rfl | ⟨st, p, hst, rfl⟩
  · refine ⟨⟨.connectionError, rfl⟩, ?_, rfl⟩
    intro l hc
    cases hc
  · have h4 : 400 ≤ st ∧ st < 600 := by
      have hd : st = 429 ∨ st = 500 ∨ st = 502 ∨ st = 503 ∨ st = 504 := by
        simpa [statusForcelist] using hst
      omega
    have hs : JSearchClient.search (SessionOutcome.response st p) =
        .error (.httpError st) := by
      show (if 400 ≤ st ∧ st < 600 then Except.error (ReqError.httpError st)
        else Except.ok (payloadData p)) = Except.error (ReqError.httpError st)
      rw [if_pos h4]
    refine ⟨⟨.httpError st, hs⟩, ?_, ?_⟩
    · intro l hc
      rw [hs] at hc
      cases hc
    · unfold run_daily_fetch
      rw [hs]

/-- Witness for `search_retries_exhausted_c2` on seven successive 429
responses. -/
theorem search_retries_exhausted_c2_witness :
    (∀ a ∈ List.replicate 7 (Attempt.response 429 ⟨none⟩), retriable a) ∧
    run_daily_fetch (SessionOutcome.response 429 ⟨none⟩) = [] :=
  ⟨by decide,
    (search_retries_exhausted_c2 (List.replicate 7 (Attempt.response 429 ⟨none⟩))
      (SessionOutcome.response 429 ⟨none⟩) (by decide) (by decide)).2.2⟩

end MocoMonitor
